import Mathlib

/-!
Shallow embedding of the review-service core (Go): the data model
(`internal/models/models.go`), the persistence layer (`internal/database`,
modelled as a pure in-memory state), and the assignment engine
(`internal/service`).  Randomness (`rand.Shuffle`, `rand.Intn`) is passed
explicitly (a shuffle function / a natural number pick) and wall-clock time
(`time.Now()`) is an explicit `Nat` parameter.
-/

namespace ReviewService

/-- `models.PullRequestStatus`: "OPEN" or "MERGED". -/
inductive PullRequestStatus where
  | OPEN
  | MERGED
deriving DecidableEq, Repr

/-- `models.User`. -/
structure User where
  userID : String
  username : String
  teamName : String
  isActive : Bool
deriving DecidableEq, Repr

/-- `models.TeamMember`. -/
structure TeamMember where
  userID : String
  username : String
  isActive : Bool
deriving DecidableEq, Repr

/-- `models.Team`. -/
structure Team where
  teamName : String
  members : List TeamMember
deriving DecidableEq, Repr

/-- `models.PullRequest`.  Timestamps are `Option Nat` (Go `*time.Time`). -/
structure PullRequest where
  pullRequestID : String
  pullRequestName : String
  authorID : String
  status : PullRequestStatus
  assignedReviewers : List String
  createdAt : Option Nat
  mergedAt : Option Nat
deriving DecidableEq, Repr

/-- `models.CreateTeamRequest`. -/
structure CreateTeamRequest where
  teamName : String
  members : List TeamMember
deriving DecidableEq, Repr

/-- `models.SetUserActiveRequest`. -/
structure SetUserActiveRequest where
  userID : String
  isActive : Bool
deriving DecidableEq, Repr

/-- `models.CreatePRRequest`. -/
structure CreatePRRequest where
  pullRequestID : String
  pullRequestName : String
  authorID : String
deriving DecidableEq, Repr

/-- `models.ReassignReviewerRequest`. -/
structure ReassignReviewerRequest where
  pullRequestID : String
  oldUserID : String
deriving DecidableEq, Repr

/-- The persistent state of `database.DB`: the `teams`, `users`,
`pull_requests` tables.  The `pr_reviewers` edge table is folded into each
PR's `assignedReviewers` field (exactly how `DB.GetPRByID` materialises a
PR together with its edges). -/
structure DB where
  teams : List String
  users : List User
  prs : List PullRequest
deriving DecidableEq, Repr

/-- The service-level errors of `internal/service` (`ErrTeamExists`,
`ErrUserNotFound`, `ErrPRExists`, `ErrPRNotFound`, `ErrPRMerged`,
`ErrReviewerNotAssigned`, `ErrNoCandidate`); in Go these are distinct
`errors.New` values. -/
inductive ServiceError where
  | teamExists
  | teamNotFound
  | userNotFound
  | prExists
  | prNotFound
  | prMerged
  | reviewerNotAssigned
  | noCandidate
deriving DecidableEq, Repr

/-- `DB.GetTeamByName` (existence part: `SELECT name FROM teams WHERE name = $1`). -/
def DB.GetTeamByName (db : DB) (name : String) : Option String :=
  db.teams.find? (fun t => t == name)

/-- `DB.CreateTeam`: `INSERT INTO teams (name) VALUES ($1)`. -/
def DB.CreateTeam (db : DB) (name : String) : DB :=
  { db with teams := db.teams ++ [name] }

/-- `DB.CreateOrUpdateUser`: `INSERT ... ON CONFLICT (user_id) DO UPDATE SET
username, team_name, is_active`. -/
def DB.CreateOrUpdateUser (db : DB) (user : User) : DB :=
  if db.users.any (fun u => u.userID == user.userID) then
    { db with users := db.users.map (fun u => if u.userID == user.userID then user else u) }
  else
    { db with users := db.users ++ [user] }

/-- `DB.GetUserByID`: `SELECT ... FROM users WHERE user_id = $1`. -/
def DB.GetUserByID (db : DB) (userID : String) : Option User :=
  db.users.find? (fun u => u.userID == userID)

/-- `DB.UpdateUser`: `UPDATE users SET username = $1, team_name = $2,
is_active = $3 WHERE user_id = $4`. -/
def DB.UpdateUser (db : DB) (user : User) : DB :=
  { db with users := db.users.map (fun u =>
      if u.userID == user.userID then
        { u with username := user.username, teamName := user.teamName,
                 isActive := user.isActive }
      else u) }

/-- `DB.GetActiveUsersByTeam`: `SELECT ... FROM users WHERE team_name = $1
AND is_active = true AND user_id != $2`. -/
def DB.GetActiveUsersByTeam (db : DB) (teamName excludeUserID : String) : List User :=
  db.users.filter (fun u =>
    u.teamName == teamName && u.isActive && u.userID != excludeUserID)

/-- `DB.CreatePR`: inserts the PR row and one `pr_reviewers` edge per
assigned reviewer, atomically (one transaction). -/
def DB.CreatePR (db : DB) (pr : PullRequest) : DB :=
  { db with prs := db.prs ++ [pr] }

/-- `DB.GetPRByID`: `SELECT ... FROM pull_requests WHERE pull_request_id = $1`
plus its `pr_reviewers` edges. -/
def DB.GetPRByID (db : DB) (prID : String) : Option PullRequest :=
  db.prs.find? (fun p => p.pullRequestID == prID)

/-- `DB.UpdatePR`: `UPDATE pull_requests SET pull_request_name = $1,
author_id = $2, status = $3, merged_at = $4 WHERE pull_request_id = $5`.
Note: `created_at` and the reviewer edges are NOT touched. -/
def DB.UpdatePR (db : DB) (pr : PullRequest) : DB :=
  { db with prs := db.prs.map (fun p =>
      if p.pullRequestID == pr.pullRequestID then
        { p with pullRequestName := pr.pullRequestName, authorID := pr.authorID,
                 status := pr.status, mergedAt := pr.mergedAt }
      else p) }

/-- `DB.UpdatePRReviewers`: in one transaction, `DELETE FROM pr_reviewers
WHERE pr_id = $1` then insert the given reviewer list. -/
def DB.UpdatePRReviewers (db : DB) (prID : String) (reviewers : List String) : DB :=
  { db with prs := db.prs.map (fun p =>
      if p.pullRequestID == prID then { p with assignedReviewers := reviewers } else p) }

/-- `Service.CreateTeam`. -/
def Service.CreateTeam (db : DB) (req : CreateTeamRequest) :
    DB × Except ServiceError Team :=
  match db.GetTeamByName req.teamName with
  | some _ => (db, .error .teamExists)
  | none =>
    let db1 := db.CreateTeam req.teamName
    let db2 := req.members.foldl (fun d m =>
        d.CreateOrUpdateUser
          { userID := m.userID, username := m.username,
            teamName := req.teamName, isActive := m.isActive }) db1
    (db2, .ok { teamName := req.teamName, members := req.members })

/-- `Service.SetUserActive`. -/
def Service.SetUserActive (db : DB) (req : SetUserActiveRequest) :
    DB × Except ServiceError User :=
  match db.GetUserByID req.userID with
  | none => (db, .error .userNotFound)
  | some user =>
    let user2 := { user with isActive := req.isActive }
    (db.UpdateUser user2, .ok user2)

/-- `Service.CreatePR`.  `shuffle` stands for `rand.Shuffle` (the theorems
hypothesise it permutes its input); `now` is `time.Now()`. -/
def Service.CreatePR (db : DB) (shuffle : List User → List User) (now : Nat)
    (req : CreatePRRequest) : DB × Except ServiceError PullRequest :=
  match db.GetPRByID req.pullRequestID with
  | some _ => (db, .error .prExists)
  | none =>
    match db.GetUserByID req.authorID with
    | none => (db, .error .userNotFound)
    | some author =>
      let teamMembers := db.GetActiveUsersByTeam author.teamName author.userID
      let reviewers :=
        if 0 < teamMembers.length then
          ((shuffle teamMembers).take (min 2 teamMembers.length)).map User.userID
        else []
      let pr : PullRequest :=
        { pullRequestID := req.pullRequestID
          pullRequestName := req.pullRequestName
          authorID := req.authorID
          status := .OPEN
          assignedReviewers := reviewers
          createdAt := some now
          mergedAt := none }
      (db.CreatePR pr, .ok pr)

/-- `Service.MergePR`; `now` is `time.Now()`. -/
def Service.MergePR (db : DB) (now : Nat) (prID : String) :
    DB × Except ServiceError PullRequest :=
  match db.GetPRByID prID with
  | none => (db, .error .prNotFound)
  | some pr =>
    if pr.status = .MERGED then (db, .ok pr)
    else
      let pr2 := { pr with status := .MERGED, mergedAt := some now }
      (db.UpdatePR pr2, .ok pr2)

/-- The replacement pool computed by `Service.ReassignReviewer`'s filter
loop: the candidates (active users of the old reviewer's team, excluding
the PR's author) that are not current reviewers and are not the old
reviewer. -/
def availableReplacements (db : DB) (pr : PullRequest) (oldReviewer : User)
    (oldUserID : String) : List User :=
  (db.GetActiveUsersByTeam oldReviewer.teamName pr.authorID).filter (fun c =>
    !(pr.assignedReviewers.contains c.userID) && c.userID != oldUserID)

/-- `Service.ReassignReviewer`.  `pick` stands for the value drawn by
`rand.Intn(len(available))`, taken modulo the pool size. -/
def Service.ReassignReviewer (db : DB) (pick : Nat) (req : ReassignReviewerRequest) :
    DB × Except ServiceError (PullRequest × String) :=
  match db.GetPRByID req.pullRequestID with
  | none => (db, .error .prNotFound)
  | some pr =>
    if pr.status = .MERGED then (db, .error .prMerged)
    else if pr.assignedReviewers.contains req.oldUserID = false then
      (db, .error .reviewerNotAssigned)
    else
      match db.GetUserByID req.oldUserID with
      | none => (db, .error .userNotFound)
      | some oldReviewer =>
        match availableReplacements db pr oldReviewer req.oldUserID with
        | [] => (db, .error .noCandidate)
        | a :: rest =>
          let newReviewer := (a :: rest).getD (pick % (a :: rest).length) a
          let newReviewers := pr.assignedReviewers.map
            (fun r => if r == req.oldUserID then newReviewer.userID else r)
          (db.UpdatePRReviewers pr.pullRequestID newReviewers,
           .ok ({ pr with assignedReviewers := newReviewers }, newReviewer.userID))

/-- One externally triggered mutation of the service, covering every
operation that writes to the store.  Random inputs are existentially free,
except that the creation shuffle must be a permutation (as `rand.Shuffle`
is). -/
inductive Step : DB → DB → Prop where
  | createTeam (db : DB) (req : CreateTeamRequest) :
      Step db (Service.CreateTeam db req).1
  | setUserActive (db : DB) (req : SetUserActiveRequest) :
      Step db (Service.SetUserActive db req).1
  | createPR (db : DB) (shuffle : List User → List User) (now : Nat)
      (req : CreatePRRequest) (hperm : ∀ l, (shuffle l).Perm l) :
      Step db (Service.CreatePR db shuffle now req).1
  | mergePR (db : DB) (now : Nat) (prID : String) :
      Step db (Service.MergePR db now prID).1
  | reassignReviewer (db : DB) (pick : Nat) (req : ReassignReviewerRequest) :
      Step db (Service.ReassignReviewer db pick req).1

/-- The empty store produced by the schema bootstrap. -/
def DB.init : DB := { teams := [], users := [], prs := [] }

/-- States reachable from the empty store by service operations. -/
def Reachable (db : DB) : Prop := Relation.ReflTransGen Step DB.init db

/-- Invariant: no PR lists its author among its own reviewers. -/
def DB.AuthorNotReviewer (db : DB) : Prop :=
  ∀ pr ∈ db.prs, pr.authorID ∉ pr.assignedReviewers

/-- Invariant: PR identifiers are unique (the `pull_requests` primary key). -/
def DB.NodupPRIDs (db : DB) : Prop :=
  (db.prs.map PullRequest.pullRequestID).Nodup

/-! ### Concrete fixtures used by the witness theorems -/

/-- A sample user table: team `t` with four active members and one
inactive member. -/
def sampleUsers : List User :=
  [ { userID := "u1", username := "alice", teamName := "t", isActive := true },
    { userID := "u2", username := "bob", teamName := "t", isActive := true },
    { userID := "u3", username := "carol", teamName := "t", isActive := true },
    { userID := "u4", username := "dave", teamName := "t", isActive := true },
    { userID := "u5", username := "eve", teamName := "t", isActive := false } ]

/-- A sample OPEN PR authored by `u1` with reviewers `u2`, `u3`. -/
def samplePR1 : PullRequest :=
  { pullRequestID := "pr1", pullRequestName := "feature", authorID := "u1",
    status := .OPEN, assignedReviewers := ["u2", "u3"], createdAt := some 3,
    mergedAt := none }

/-- A sample MERGED PR authored by `u1`. -/
def samplePR2 : PullRequest :=
  { pullRequestID := "pr2", pullRequestName := "bugfix", authorID := "u1",
    status := .MERGED, assignedReviewers := ["u2"], createdAt := some 1,
    mergedAt := some 2 }

/-- A sample store holding both sample PRs. -/
def sampleDB : DB :=
  { teams := ["t"], users := sampleUsers, prs := [samplePR1, samplePR2] }

/-- A sample team-creation request. -/
def sampleTeamReq : CreateTeamRequest :=
  { teamName := "t",
    members := [ { userID := "u1", username := "alice", isActive := true },
                 { userID := "u2", username := "bob", isActive := true } ] }

/-- The store after creating the sample team in the empty store. -/
def sampleDB1 : DB := (Service.CreateTeam DB.init sampleTeamReq).1

/-- A sample PR-creation request authored by `u1`. -/
def samplePRReq : CreatePRRequest :=
  { pullRequestID := "p", pullRequestName := "n", authorID := "u1" }

/-- The store after additionally creating the sample PR (identity
shuffle, time 0). -/
def sampleDB2 : DB := (Service.CreatePR sampleDB1 id 0 samplePRReq).1

/-! ### General helper lemmas -/

theorem getD_mem_of_lt {α : Type} (l : List α) (n : Nat) (d : α) (h : n < l.length) :
    l.getD n d ∈ l := by
  rw [List.getD_eq_getElem l d h]
  exact List.getElem_mem h

theorem find?_map_pres {α : Type} (f : α → α) (p : α → Bool) (l : List α)
    (hf : ∀ x, p (f x) = p x) : (l.map f).find? p = (l.find? p).map f := by
  rw [List.find?_map, show p ∘ f = p from funext hf]

theorem DB.GetPRByID_mem {db : DB} {prID : String} {pr : PullRequest}
    (h : db.GetPRByID prID = some pr) : pr ∈ db.prs :=
  List.mem_of_find?_eq_some h

theorem DB.GetPRByID_id {db : DB} {prID : String} {pr : PullRequest}
    (h : db.GetPRByID prID = some pr) : pr.pullRequestID = prID := by
  simpa using List.find?_some h

theorem DB.GetUserByID_mem {db : DB} {userID : String} {u : User}
    (h : db.GetUserByID userID = some u) : u ∈ db.users :=
  List.mem_of_find?_eq_some h

theorem DB.GetUserByID_id {db : DB} {userID : String} {u : User}
    (h : db.GetUserByID userID = some u) : u.userID = userID := by
  simpa using List.find?_some h

theorem DB.GetPRByID_UpdatePR (db : DB) (pr2 : PullRequest) (prID : String) :
    (db.UpdatePR pr2).GetPRByID prID = (db.GetPRByID prID).map (fun p =>
      if p.pullRequestID == pr2.pullRequestID then
        { p with pullRequestName := pr2.pullRequestName, authorID := pr2.authorID,
                 status := pr2.status, mergedAt := pr2.mergedAt }
      else p) := by
  unfold DB.GetPRByID DB.UpdatePR
  exact find?_map_pres _ _ _ (fun p => by
    cases h : p.pullRequestID == pr2.pullRequestID <;> simp [h])

theorem DB.GetPRByID_UpdatePRReviewers (db : DB) (prID lookupID : String)
    (rs : List String) :
    (db.UpdatePRReviewers prID rs).GetPRByID lookupID =
      (db.GetPRByID lookupID).map (fun p =>
        if p.pullRequestID == prID then { p with assignedReviewers := rs } else p) := by
  unfold DB.GetPRByID DB.UpdatePRReviewers
  exact find?_map_pres _ _ _ (fun p => by
    cases h : p.pullRequestID == prID <;> simp [h])

/-! ### Merge lemmas -/

theorem Service.MergePR_open {db : DB} {now : Nat} {prID : String} {pr : PullRequest}
    (hpr : db.GetPRByID prID = some pr) (hst : pr.status = .OPEN) :
    Service.MergePR db now prID =
      (db.UpdatePR { pr with status := .MERGED, mergedAt := some now },
       .ok { pr with status := .MERGED, mergedAt := some now }) := by
  unfold Service.MergePR
  rw [hpr]
  simp [hst]

theorem Service.MergePR_open_state {db : DB} {now : Nat} {prID : String}
    {pr : PullRequest} (hpr : db.GetPRByID prID = some pr) (hst : pr.status = .OPEN) :
    (Service.MergePR db now prID).1.GetPRByID prID =
      some { pr with status := .MERGED, mergedAt := some now } := by
  rw [Service.MergePR_open hpr hst]
  simp only
  rw [DB.GetPRByID_UpdatePR, hpr]
  simp

/-- C5.  `MergePR` is idempotent: merging a PR whose status is already
MERGED reports success and returns the PR's current state with the store
unchanged; after a first merge of an OPEN PR at time `t1`, a second merge at
any time `t2` returns the same status and the same merge timestamp `t1` as
the first and leaves the store unchanged (no re-stamp). -/
theorem mergePR_idempotent :
    (∀ (db : DB) (now : Nat) (prID : String) (pr : PullRequest),
      db.GetPRByID prID = some pr → pr.status = .MERGED →
        Service.MergePR db now prID = (db, .ok pr)) ∧
    (∀ (db : DB) (t1 t2 : Nat) (prID : String) (pr : PullRequest),
      db.GetPRByID prID = some pr → pr.status = .OPEN →
        (Service.MergePR db t1 prID).2 =
          .ok { pr with status := .MERGED, mergedAt := some t1 } ∧
        Service.MergePR (Service.MergePR db t1 prID).1 t2 prID =
          ((Service.MergePR db t1 prID).1,
           .ok { pr with status := .MERGED, mergedAt := some t1 })) := by
  constructor
  · intro db now prID pr hpr hst
    unfold Service.MergePR
    rw [hpr]
    simp [hst]
  · intro db t1 t2 prID pr hpr hst
    have h2 := @Service.MergePR_open_state db t1 prID pr hpr hst
    constructor
    · rw [Service.MergePR_open hpr hst]
    · generalize hdb1 : (Service.MergePR db t1 prID).1 = db1 at h2 ⊢
      unfold Service.MergePR
      rw [h2]
      simp

/-- C5 witness: a concrete OPEN PR merged twice. -/
theorem mergePR_idempotent_witness :
    sampleDB.GetPRByID "pr1" = some samplePR1 ∧ samplePR1.status = .OPEN ∧
    Service.MergePR (Service.MergePR sampleDB 5 "pr1").1 9 "pr1" =
      ((Service.MergePR sampleDB 5 "pr1").1,
       .ok { samplePR1 with status := .MERGED, mergedAt := some 5 }) := by
  refine ⟨by rfl, by rfl, ?_⟩
  exact (mergePR_idempotent.2 sampleDB 5 9 "pr1" samplePR1 (by rfl) (by rfl)).2

/-- C10.  Merging an OPEN PR changes only its status and merge timestamp:
the stored PR keeps its reviewer set, title, author and creation timestamp,
while its status becomes MERGED and its merge timestamp becomes `now`. -/
theorem mergePR_frame (db : DB) (now : Nat) (prID : String) (pr : PullRequest)
    (hpr : db.GetPRByID prID = some pr) (hst : pr.status = .OPEN) :
    ∃ pr', (Service.MergePR db now prID).1.GetPRByID prID = some pr' ∧
      pr'.assignedReviewers = pr.assignedReviewers ∧
      pr'.pullRequestName = pr.pullRequestName ∧
      pr'.authorID = pr.authorID ∧
      pr'.createdAt = pr.createdAt ∧
      pr'.status = .MERGED ∧ pr'.mergedAt = some now := by
  exact ⟨{ pr with status := .MERGED, mergedAt := some now },
    Service.MergePR_open_state hpr hst, rfl, rfl, rfl, rfl, rfl, rfl⟩

/-! ### Shape lemmas for each operation's resulting state -/

theorem DB.prs_CreateOrUpdateUser (db : DB) (u : User) :
    (db.CreateOrUpdateUser u).prs = db.prs := by
  unfold DB.CreateOrUpdateUser
  split <;> rfl

theorem Service.CreateTeam_prs (db : DB) (req : CreateTeamRequest) :
    (Service.CreateTeam db req).1.prs = db.prs := by
  unfold Service.CreateTeam
  cases h : db.GetTeamByName req.teamName with
  | some t => rfl
  | none =>
    dsimp only
    have key : ∀ (ms : List TeamMember) (d : DB),
        (ms.foldl (fun d m => d.CreateOrUpdateUser
          { userID := m.userID, username := m.username,
            teamName := req.teamName, isActive := m.isActive }) d).prs = d.prs := by
      intro ms
      induction ms with
      | nil => intro d; rfl
      | cons m ms ih =>
        intro d
        rw [List.foldl_cons, ih, DB.prs_CreateOrUpdateUser]
    rw [key]
    rfl

theorem Service.SetUserActive_prs (db : DB) (req : SetUserActiveRequest) :
    (Service.SetUserActive db req).1.prs = db.prs := by
  unfold Service.SetUserActive
  cases h : db.GetUserByID req.userID <;> rfl

theorem Service.SetUserActive_teams (db : DB) (req : SetUserActiveRequest) :
    (Service.SetUserActive db req).1.teams = db.teams := by
  unfold Service.SetUserActive
  cases h : db.GetUserByID req.userID <;> rfl

theorem Service.CreatePR_state (db : DB) (shuffle : List User → List User) (now : Nat)
    (req : CreatePRRequest) :
    (Service.CreatePR db shuffle now req).1 = db ∨
    ∃ prNew, (Service.CreatePR db shuffle now req).1.prs = db.prs ++ [prNew] := by
  unfold Service.CreatePR
  split
  · left; rfl
  · split
    · left; rfl
    · right; exact ⟨_, rfl⟩

theorem Service.MergePR_state (db : DB) (now : Nat) (prID : String) :
    (Service.MergePR db now prID).1 = db ∨
    ∃ pr2 : PullRequest, pr2.status = .MERGED ∧
      (Service.MergePR db now prID).1 = db.UpdatePR pr2 := by
  unfold Service.MergePR
  split
  · left; rfl
  · split
    · left; rfl
    · right; exact ⟨_, rfl, rfl⟩

theorem Service.ReassignReviewer_state (db : DB) (pick : Nat)
    (req : ReassignReviewerRequest) :
    (Service.ReassignReviewer db pick req).1 = db ∨
    ∃ prID rs, (Service.ReassignReviewer db pick req).1 = db.UpdatePRReviewers prID rs := by
  unfold Service.ReassignReviewer
  split
  · left; rfl
  · split
    · left; rfl
    · split
      · left; rfl
      · split
        · left; rfl
        · split
          · left; rfl
          · right; exact ⟨_, _, rfl⟩

theorem DB.UpdatePR_merged_frame (db : DB) (pr2 : PullRequest)
    (h2 : pr2.status = .MERGED) (pr : PullRequest) (hmem : pr ∈ db.prs)
    (hst : pr.status = .MERGED) :
    ∃ pr' ∈ (db.UpdatePR pr2).prs,
      pr'.pullRequestID = pr.pullRequestID ∧ pr'.status = .MERGED := by
  unfold DB.UpdatePR
  refine ⟨_, List.mem_map_of_mem _ hmem, ?_, ?_⟩
  · cases h : pr.pullRequestID == pr2.pullRequestID <;> simp [h]
  · cases h : pr.pullRequestID == pr2.pullRequestID <;> simp [h, hst, h2]

theorem DB.UpdatePRReviewers_status (db : DB) (prID : String) (rs : List String)
    (pr : PullRequest) (hmem : pr ∈ db.prs) :
    ∃ pr' ∈ (db.UpdatePRReviewers prID rs).prs,
      pr'.pullRequestID = pr.pullRequestID ∧ pr'.status = pr.status := by
  unfold DB.UpdatePRReviewers
  refine ⟨_, List.mem_map_of_mem _ hmem, ?_, ?_⟩
  · cases h : pr.pullRequestID == prID <;> simp [h]
  · cases h : pr.pullRequestID == prID <;> simp [h]

theorem Step.preserves_merged {db db' : DB} (h : Step db db') :
    ∀ pr ∈ db.prs, pr.status = .MERGED →
      ∃ pr' ∈ db'.prs, pr'.pullRequestID = pr.pullRequestID ∧ pr'.status = .MERGED := by
  intro pr hmem hst
  cases h with
  | createTeam req =>
    rw [Service.CreateTeam_prs]
    exact ⟨pr, hmem, rfl, hst⟩
  | setUserActive req =>
    rw [Service.SetUserActive_prs]
    exact ⟨pr, hmem, rfl, hst⟩
  | createPR shuffle now req hperm =>
    rcases Service.CreatePR_state db shuffle now req with h | ⟨prNew, h⟩
    · rw [h]; exact ⟨pr, hmem, rfl, hst⟩
    · rw [h]; exact ⟨pr, List.mem_append.mpr (Or.inl hmem), rfl, hst⟩
  | mergePR now prID =>
    rcases Service.MergePR_state db now prID with h | ⟨pr2, h2, h⟩
    · rw [h]; exact ⟨pr, hmem, rfl, hst⟩
    · rw [h]; exact DB.UpdatePR_merged_frame db pr2 h2 pr hmem hst
  | reassignReviewer pick req =>
    rcases Service.ReassignReviewer_state db pick req with h | ⟨prID, rs, h⟩
    · rw [h]; exact ⟨pr, hmem, rfl, hst⟩
    · rw [h]
      obtain ⟨pr', hmem', hid, hstat⟩ := DB.UpdatePRReviewers_status db prID rs pr hmem
      exact ⟨pr', hmem', hid, hstat.trans hst⟩

/-- C8.  `MergePR` on an OPEN PR sets the status to MERGED and stamps the
merge timestamp with the current time (both in the returned PR and in the
store); it fails with `prNotFound` exactly when the PR identifier does not
resolve; and no operation of the core (`Step`) moves a PR out of MERGED. -/
theorem mergePR_transition :
    (∀ (db : DB) (now : Nat) (prID : String) (pr : PullRequest),
      db.GetPRByID prID = some pr → pr.status = .OPEN →
        (Service.MergePR db now prID).2 =
          .ok { pr with status := .MERGED, mergedAt := some now } ∧
        (Service.MergePR db now prID).1.GetPRByID prID =
          some { pr with status := .MERGED, mergedAt := some now }) ∧
    (∀ (db : DB) (now : Nat) (prID : String),
      (Service.MergePR db now prID).2 = .error .prNotFound ↔
        db.GetPRByID prID = none) ∧
    (∀ db db' : DB, Step db db' → ∀ pr ∈ db.prs, pr.status = .MERGED →
      ∃ pr' ∈ db'.prs, pr'.pullRequestID = pr.pullRequestID ∧
        pr'.status = .MERGED) := by
  refine ⟨?_, ?_, fun db db' h => Step.preserves_merged h⟩
  · intro db now prID pr hpr hst
    constructor
    · rw [Service.MergePR_open hpr hst]
    · exact @Service.MergePR_open_state db now prID pr hpr hst
  · intro db now prID
    unfold Service.MergePR
    cases h : db.GetPRByID prID with
    | none => simp
    | some pr => by_cases hm : pr.status = .MERGED <;> simp [hm]

/-- C8 witness: merging a concrete OPEN PR, a missing PR, and one concrete
step over a store holding a MERGED PR. -/
theorem mergePR_transition_witness :
    sampleDB.GetPRByID "pr1" = some samplePR1 ∧ samplePR1.status = .OPEN ∧
    (Service.MergePR sampleDB 5 "pr1").2 =
      .ok { samplePR1 with status := .MERGED, mergedAt := some 5 } ∧
    (Service.MergePR sampleDB 0 "nope").2 = .error .prNotFound ∧
    samplePR2 ∈ sampleDB.prs ∧ samplePR2.status = .MERGED ∧
    (∃ pr' ∈ (Service.MergePR sampleDB 5 "pr1").1.prs,
      pr'.pullRequestID = samplePR2.pullRequestID ∧ pr'.status = .MERGED) := by
  refine ⟨by rfl, by rfl, ?_, ?_, by decide, by rfl, ?_⟩
  · exact (mergePR_transition.1 sampleDB 5 "pr1" samplePR1 (by rfl) (by rfl)).1
  · exact (mergePR_transition.2.1 sampleDB 0 "nope").mpr (by rfl)
  · exact mergePR_transition.2.2 sampleDB _ (Step.mergePR sampleDB 5 "pr1")
      samplePR2 (by decide) (by rfl)

/-- C10 witness: merging a concrete OPEN PR with reviewers. -/
theorem mergePR_frame_witness :
    sampleDB.GetPRByID "pr1" = some samplePR1 ∧ samplePR1.status = .OPEN ∧
    ∃ pr', (Service.MergePR sampleDB 7 "pr1").1.GetPRByID "pr1" = some pr' ∧
      pr'.assignedReviewers = ["u2", "u3"] ∧
      pr'.pullRequestName = "feature" ∧
      pr'.authorID = "u1" ∧
      pr'.createdAt = some 3 ∧
      pr'.status = .MERGED ∧ pr'.mergedAt = some 7 := by
  exact ⟨by rfl, by rfl, mergePR_frame sampleDB 7 "pr1" samplePR1 (by rfl) (by rfl)⟩

theorem nodup_key_unique {l : List User} (h : (l.map User.userID).Nodup)
    {u v : User} (hu : u ∈ l) (hv : v ∈ l) (he : u.userID = v.userID) : u = v :=
  List.inj_on_of_nodup_map h hu hv he

/-- C9.  `SetUserActive` leaves every PR (hence every reviewer edge) and the
team table untouched, fails with `userNotFound` exactly when the user
identifier does not resolve, and (when user identifiers are unique, as the
`users` primary key guarantees) rewrites exactly the named user's record,
changing only its active flag. -/
theorem setUserActive_frame (db : DB) (req : SetUserActiveRequest) :
    (Service.SetUserActive db req).1.prs = db.prs ∧
    (Service.SetUserActive db req).1.teams = db.teams ∧
    ((Service.SetUserActive db req).2 = .error .userNotFound ↔
      db.GetUserByID req.userID = none) ∧
    ((db.users.map User.userID).Nodup →
      (Service.SetUserActive db req).1.users = db.users.map (fun u =>
        if u.userID == req.userID then { u with isActive := req.isActive } else u)) := by
  refine ⟨Service.SetUserActive_prs db req, Service.SetUserActive_teams db req, ?_, ?_⟩
  · unfold Service.SetUserActive
    cases h : db.GetUserByID req.userID with
    | none => simp
    | some u => simp
  · intro hkeys
    unfold Service.SetUserActive
    cases h : db.GetUserByID req.userID with
    | none =>
      have hnone := List.find?_eq_none.mp h
      dsimp only
      symm
      have hid : ∀ u ∈ db.users,
          (if u.userID == req.userID then { u with isActive := req.isActive } else u) = u := by
        intro u hu
        have hne := hnone u hu
        simp only [beq_iff_eq] at hne
        simp [hne]
      rw [List.map_congr_left hid]
      simp
    | some user =>
      have huid : user.userID = req.userID := DB.GetUserByID_id h
      have hmem : user ∈ db.users := DB.GetUserByID_mem h
      dsimp only [DB.UpdateUser]
      apply List.map_congr_left
      intro u hu
      by_cases he : u.userID = req.userID
      · have hu_eq : u = user := nodup_key_unique hkeys hu hmem (he.trans huid.symm)
        subst hu_eq
        simp [huid]
      · simp [huid, he]

/-- C9 witness: deactivating `u2` in the sample store. -/
theorem setUserActive_frame_witness :
    (sampleDB.users.map User.userID).Nodup ∧
    (Service.SetUserActive sampleDB { userID := "u2", isActive := false }).1.prs =
      sampleDB.prs ∧
    (Service.SetUserActive sampleDB { userID := "u2", isActive := false }).1.users =
      sampleDB.users.map (fun u =>
        if u.userID == "u2" then { u with isActive := false } else u) := by
  refine ⟨by decide, ?_, ?_⟩
  · exact (setUserActive_frame sampleDB { userID := "u2", isActive := false }).1
  · exact (setUserActive_frame sampleDB
      { userID := "u2", isActive := false }).2.2.2 (by decide)

/-- C7.  `CreatePR` fails with `prExists` exactly when the PR identifier is
taken, fails with `userNotFound` exactly when the identifier is free but the
author does not resolve, succeeds whenever the identifier is free and the
author resolves, and produces no other error. -/
theorem createPR_errors (db : DB) (shuffle : List User → List User) (now : Nat)
    (req : CreatePRRequest) :
    ((Service.CreatePR db shuffle now req).2 = .error .prExists ↔
      ∃ pr0, db.GetPRByID req.pullRequestID = some pr0) ∧
    ((Service.CreatePR db shuffle now req).2 = .error .userNotFound ↔
      db.GetPRByID req.pullRequestID = none ∧
        db.GetUserByID req.authorID = none) ∧
    ((db.GetPRByID req.pullRequestID = none ∧
        (∃ a, db.GetUserByID req.authorID = some a)) →
      ∃ pr, (Service.CreatePR db shuffle now req).2 = .ok pr) ∧
    (∀ e, (Service.CreatePR db shuffle now req).2 = .error e →
      e = .prExists ∨ e = .userNotFound) := by
  unfold Service.CreatePR
  cases h1 : db.GetPRByID req.pullRequestID with
  | some pr0 => simp
  | none =>
    cases h2 : db.GetUserByID req.authorID with
    | none => simp
    | some a => simp

/-- C7 witness: a colliding identifier and a fresh successful creation over
the sample store. -/
theorem createPR_errors_witness :
    (Service.CreatePR sampleDB id 0
      { pullRequestID := "pr1", pullRequestName := "x", authorID := "u1" }).2 =
        .error .prExists ∧
    (∃ pr, (Service.CreatePR sampleDB id 0
      { pullRequestID := "pr9", pullRequestName := "x", authorID := "u1" }).2 =
        .ok pr) := by
  constructor
  · exact (createPR_errors sampleDB id 0
      { pullRequestID := "pr1", pullRequestName := "x", authorID := "u1" }).1.mpr
      ⟨samplePR1, by rfl⟩
  · exact (createPR_errors sampleDB id 0
      { pullRequestID := "pr9", pullRequestName := "x", authorID := "u1" }).2.2.1
      ⟨by rfl, ⟨{ userID := "u1", username := "alice", teamName := "t",
                  isActive := true }, by rfl⟩⟩

theorem mem_GetActiveUsersByTeam {db : DB} {tn ex : String} {u : User}
    (h : u ∈ db.GetActiveUsersByTeam tn ex) :
    u ∈ db.users ∧ u.teamName = tn ∧ u.isActive = true ∧ u.userID ≠ ex := by
  unfold DB.GetActiveUsersByTeam at h
  obtain ⟨hmem, hcond⟩ := List.mem_filter.mp h
  simp only [Bool.and_eq_true, beq_iff_eq, bne_iff_ne, ne_eq] at hcond
  exact ⟨hmem, hcond.1.1, hcond.1.2, hcond.2⟩

theorem take2_shuffle_spec (pool sl : List User)
    (hperm : sl.Perm pool) (hkeys : (pool.map User.userID).Nodup) :
    ((sl.take (min 2 pool.length)).map User.userID).length = min 2 pool.length ∧
    ((sl.take (min 2 pool.length)).map User.userID).Nodup ∧
    (∀ r ∈ (sl.take (min 2 pool.length)).map User.userID,
      ∃ u ∈ pool, u.userID = r) := by
  refine ⟨?_, ?_, ?_⟩
  · rw [List.length_map, List.length_take, hperm.length_eq]
    omega
  · have hsub : List.Sublist ((sl.take (min 2 pool.length)).map User.userID)
        (sl.map User.userID) := (List.take_sublist _ _).map _
    have hnd : (sl.map User.userID).Nodup :=
      ((hperm.map User.userID).nodup_iff).mpr hkeys
    exact hnd.sublist hsub
  · intro r hr
    obtain ⟨u, hu, hru⟩ := List.mem_map.mp hr
    exact ⟨u, hperm.subset ((List.take_sublist _ _).subset hu), hru⟩

/-- C1.  For a CreatePR request whose author resolves and whose identifier
is free, the created PR's reviewers form a duplicate-free subset of the
active users of the author's team excluding the author, of size exactly
`min 2 (pool size)`, never containing the author — and creation succeeds
even when the pool is empty. -/
theorem createPR_reviewer_selection (db : DB) (shuffle : List User → List User)
    (now : Nat) (req : CreatePRRequest) (author : User)
    (hkeys : (db.users.map User.userID).Nodup)
    (hperm : ∀ l : List User, (shuffle l).Perm l)
    (hno : db.GetPRByID req.pullRequestID = none)
    (hauthor : db.GetUserByID req.authorID = some author) :
    ∃ pr, (Service.CreatePR db shuffle now req).2 = .ok pr ∧
      pr.assignedReviewers.length =
        min 2 (db.GetActiveUsersByTeam author.teamName author.userID).length ∧
      pr.assignedReviewers.Nodup ∧
      (∀ r ∈ pr.assignedReviewers,
        ∃ u ∈ db.GetActiveUsersByTeam author.teamName author.userID, u.userID = r) ∧
      (∀ r ∈ pr.assignedReviewers, r ≠ req.authorID) := by
  have hauthorid : author.userID = req.authorID := DB.GetUserByID_id hauthor
  have hpoolsub : List.Sublist
      ((db.GetActiveUsersByTeam author.teamName author.userID).map User.userID)
      (db.users.map User.userID) := by
    unfold DB.GetActiveUsersByTeam
    exact (List.filter_sublist db.users).map User.userID
  have hpoolkeys := hkeys.sublist hpoolsub
  unfold Service.CreatePR
  rw [hno, hauthor]
  dsimp only
  by_cases hlen : 0 < (db.GetActiveUsersByTeam author.teamName author.userID).length
  · rw [if_pos hlen]
    obtain ⟨hlenEq, hnd, hmem⟩ := take2_shuffle_spec
      (db.GetActiveUsersByTeam author.teamName author.userID) (shuffle _)
      (hperm _) hpoolkeys
    refine ⟨_, rfl, hlenEq, hnd, hmem, ?_⟩
    intro r hr
    obtain ⟨u, hu, hru⟩ := hmem r hr
    have hne := (mem_GetActiveUsersByTeam hu).2.2.2
    rw [← hru, ← hauthorid]
    exact hne
  · rw [if_neg hlen]
    have h0 : (db.GetActiveUsersByTeam author.teamName author.userID).length = 0 := by
      omega
    refine ⟨_, rfl, ?_, ?_, ?_, ?_⟩
    · simp [h0]
    · simp
    · intro r hr
      exact absurd hr (List.not_mem_nil r)
    · intro r hr
      exact absurd hr (List.not_mem_nil r)

/-- C1 witness: creating a fresh PR authored by `u1` in the sample store
with the identity shuffle. -/
theorem createPR_reviewer_selection_witness :
    ∃ pr, (Service.CreatePR sampleDB id 0
      { pullRequestID := "pr9", pullRequestName := "y", authorID := "u1" }).2 =
        .ok pr ∧
      pr.assignedReviewers.length =
        min 2 (sampleDB.GetActiveUsersByTeam "t" "u1").length ∧
      pr.assignedReviewers.Nodup ∧
      (∀ r ∈ pr.assignedReviewers,
        ∃ u ∈ sampleDB.GetActiveUsersByTeam "t" "u1", u.userID = r) ∧
      (∀ r ∈ pr.assignedReviewers, r ≠ "u1") :=
  createPR_reviewer_selection sampleDB id 0
    { pullRequestID := "pr9", pullRequestName := "y", authorID := "u1" }
    { userID := "u1", username := "alice", teamName := "t", isActive := true }
    (by decide) (fun l => List.Perm.refl l) (by rfl) (by rfl)

/-- Success characterisation of `Service.ReassignReviewer`: a successful
call pins down every intermediate value of the algorithm. -/
theorem Service.ReassignReviewer_ok {db : DB} {pick : Nat}
    {req : ReassignReviewerRequest} {pr' : PullRequest} {newID : String}
    (hok : (Service.ReassignReviewer db pick req).2 = .ok (pr', newID)) :
    ∃ pr oldR a rest,
      db.GetPRByID req.pullRequestID = some pr ∧
      pr.status ≠ .MERGED ∧
      pr.assignedReviewers.contains req.oldUserID = true ∧
      db.GetUserByID req.oldUserID = some oldR ∧
      availableReplacements db pr oldR req.oldUserID = a :: rest ∧
      newID = ((a :: rest).getD (pick % (a :: rest).length) a).userID ∧
      pr' = { pr with
        assignedReviewers :=
          pr.assignedReviewers.map (fun r => if r == req.oldUserID then newID else r) } ∧
      (Service.ReassignReviewer db pick req).1 =
        db.UpdatePRReviewers pr.pullRequestID (pr.assignedReviewers.map
          (fun r => if r == req.oldUserID then newID else r)) := by
  unfold Service.ReassignReviewer at hok
  split at hok
  · simp at hok
  · rename_i pr hpr
    split at hok
    · simp at hok
    · rename_i hm
      split at hok
      · simp at hok
      · rename_i hc'
        split at hok
        · simp at hok
        · rename_i oldR hold
          split at hok
          · simp at hok
          · rename_i a rest hav
            have hc : pr.assignedReviewers.contains req.oldUserID = true := by
              cases h : pr.assignedReviewers.contains req.oldUserID with
              | false => exact absurd h hc'
              | true => rfl
            simp only [Except.ok.injEq, Prod.mk.injEq] at hok
            obtain ⟨hpr', hnid⟩ := hok
            refine ⟨pr, oldR, a, rest, hpr, hm, hc, hold, hav, hnid.symm, ?_, ?_⟩
            · rw [← hpr', hnid]
            · unfold Service.ReassignReviewer
              rw [hpr]
              dsimp only
              rw [if_neg hm, if_neg hc', hold]
              dsimp only
              rw [hav]
              dsimp only
              rw [hnid]

/-- The replacement picked by a successful reassignment is a member of the
filtered candidate pool. -/
theorem reassign_newReviewer_mem {pick : Nat} {a : User} {rest : List User} :
    (a :: rest).getD (pick % (a :: rest).length) a ∈ a :: rest :=
  getD_mem_of_lt _ _ _ (Nat.mod_lt _ (by simp))

/-- Everything the filter guarantees about the picked replacement: it is a
stored user of the old reviewer's team, active, not the PR's author, not an
assigned reviewer, and not the removed reviewer. -/
theorem reassign_pick_spec {db : DB} {pr : PullRequest} {oldID : String}
    {oldR : User} {a : User} {rest : List User} (pick : Nat)
    (hav : availableReplacements db pr oldR oldID = a :: rest) :
    ∃ u ∈ db.users,
      u = (a :: rest).getD (pick % (a :: rest).length) a ∧
      u.teamName = oldR.teamName ∧ u.isActive = true ∧
      u.userID ∉ pr.assignedReviewers ∧ u.userID ≠ oldID ∧
      u.userID ≠ pr.authorID := by
  have hmem2 : (a :: rest).getD (pick % (a :: rest).length) a ∈
      availableReplacements db pr oldR oldID := by
    rw [hav]
    exact reassign_newReviewer_mem
  unfold availableReplacements at hmem2
  obtain ⟨hpool, hcond⟩ := List.mem_filter.mp hmem2
  obtain ⟨husers, hteam, hact, hne_author⟩ := mem_GetActiveUsersByTeam hpool
  simp only [Bool.and_eq_true, Bool.not_eq_true', bne_iff_ne, ne_eq] at hcond
  refine ⟨_, husers, rfl, hteam, hact, ?_, hcond.2, hne_author⟩
  simpa using hcond.1

/-- C2.  A successful `ReassignReviewer` call replaces exactly the targeted
reviewer edge: the new reviewer list is the old one with the old reviewer
substituted by the replacement (positionally, so all other edges are
untouched); as a set, the result is the old set minus the old reviewer plus
the replacement; and the stored PR agrees with the returned one. -/
theorem reassign_replaces_edge (db : DB) (pick : Nat)
    (req : ReassignReviewerRequest) (pr pr' : PullRequest) (newID : String)
    (hpr : db.GetPRByID req.pullRequestID = some pr)
    (hok : (Service.ReassignReviewer db pick req).2 = .ok (pr', newID)) :
    pr'.assignedReviewers = pr.assignedReviewers.map
      (fun r => if r == req.oldUserID then newID else r) ∧
    (∀ x, x ∈ pr'.assignedReviewers ↔
      (x = newID ∨ (x ∈ pr.assignedReviewers ∧ x ≠ req.oldUserID))) ∧
    (Service.ReassignReviewer db pick req).1.GetPRByID req.pullRequestID =
      some pr' := by
  obtain ⟨pr0, oldR, a, rest, hpr0, hm, hc, hold, hav, hnid, hpr', hst⟩ :=
    Service.ReassignReviewer_ok hok
  have heq : pr = pr0 := (Option.some.injEq _ _).mp (hpr.symm.trans hpr0)
  subst heq
  obtain ⟨u, hu_users, hu_eq, hu_team, hu_act, hu_notin, hu_ne_old, hu_ne_auth⟩ :=
    reassign_pick_spec pick hav
  have hnew_ne_old : newID ≠ req.oldUserID := by
    rw [hnid, ← hu_eq]
    exact hu_ne_old
  have hold_mem : req.oldUserID ∈ pr.assignedReviewers := by
    simpa using hc
  refine ⟨by rw [hpr'], ?_, ?_⟩
  · intro x
    rw [hpr']
    simp only [List.mem_map]
    constructor
    · rintro ⟨r, hr, hrx⟩
      by_cases hro : r = req.oldUserID
      · left
        rw [← hrx]
        simp [hro]
      · right
        rw [← hrx]
        simp only [beq_iff_eq, hro, if_false]
        exact ⟨hr, hro⟩
    · rintro (rfl | ⟨hx, hxo⟩)
      · exact ⟨req.oldUserID, hold_mem, by simp⟩
      · exact ⟨x, hx, by simp [hxo]⟩
  · rw [hst, DB.GetPRByID_UpdatePRReviewers]
    have hid : pr.pullRequestID = req.pullRequestID := DB.GetPRByID_id hpr
    rw [hid, hpr, hpr']
    simp [hid]

/-- C2 witness: in the sample store, reassigning `u2` on `pr1` (reviewers
`{u2, u3}`) with pick 0 yields exactly `{u4, u3}`. -/
theorem reassign_replaces_edge_witness :
    sampleDB.GetPRByID "pr1" = some samplePR1 ∧
    (Service.ReassignReviewer sampleDB 0
      { pullRequestID := "pr1", oldUserID := "u2" }).2 =
      .ok ({ samplePR1 with assignedReviewers := ["u4", "u3"] }, "u4") ∧
    (∀ x, x ∈ ({ samplePR1 with assignedReviewers := ["u4", "u3"] } :
        PullRequest).assignedReviewers ↔
      (x = "u4" ∨ (x ∈ samplePR1.assignedReviewers ∧ x ≠ "u2"))) := by
  refine ⟨by rfl, by rfl, ?_⟩
  exact (reassign_replaces_edge sampleDB 0
    { pullRequestID := "pr1", oldUserID := "u2" } samplePR1
    { samplePR1 with assignedReviewers := ["u4", "u3"] } "u4"
    (by rfl) (by rfl)).2.1

/-- C3.  The replacement chosen by a successful `ReassignReviewer` call is a
stored user on the same team as the replaced reviewer, active, not already
assigned to the PR, different from the removed reviewer, and not the PR's
author. -/
theorem reassign_replacement_eligible (db : DB) (pick : Nat)
    (req : ReassignReviewerRequest) (pr : PullRequest) (oldR : User)
    (pr' : PullRequest) (newID : String)
    (hpr : db.GetPRByID req.pullRequestID = some pr)
    (hold : db.GetUserByID req.oldUserID = some oldR)
    (hok : (Service.ReassignReviewer db pick req).2 = .ok (pr', newID)) :
    ∃ u ∈ db.users, u.userID = newID ∧ u.teamName = oldR.teamName ∧
      u.isActive = true ∧ newID ∉ pr.assignedReviewers ∧
      newID ≠ req.oldUserID ∧ newID ≠ pr.authorID := by
  obtain ⟨pr0, oldR0, a, rest, hpr0, hm, hc, hold0, hav, hnid, hpr', hst⟩ :=
    Service.ReassignReviewer_ok hok
  have heq : pr = pr0 := (Option.some.injEq _ _).mp (hpr.symm.trans hpr0)
  subst heq
  have heq2 : oldR = oldR0 := (Option.some.injEq _ _).mp (hold.symm.trans hold0)
  subst heq2
  obtain ⟨u, hu_users, hu_eq, hu_team, hu_act, hu_notin, hu_ne_old, hu_ne_auth⟩ :=
    reassign_pick_spec pick hav
  have huid : u.userID = newID := by rw [hnid, hu_eq]
  refine ⟨u, hu_users, huid, hu_team, hu_act, ?_, ?_, ?_⟩
  · rw [← huid]; exact hu_notin
  · rw [← huid]; exact hu_ne_old
  · rw [← huid]; exact hu_ne_auth

/-- C3 witness: the concrete reassignment of `u2` on `pr1` picks `u4`,
which satisfies every eligibility condition. -/
theorem reassign_replacement_eligible_witness :
    ∃ u ∈ sampleDB.users, u.userID = "u4" ∧ u.teamName = "t" ∧
      u.isActive = true ∧ "u4" ∉ samplePR1.assignedReviewers ∧
      "u4" ≠ "u2" ∧ "u4" ≠ samplePR1.authorID :=
  reassign_replacement_eligible sampleDB 0
    { pullRequestID := "pr1", oldUserID := "u2" } samplePR1
    { userID := "u2", username := "bob", teamName := "t", isActive := true }
    { samplePR1 with assignedReviewers := ["u4", "u3"] } "u4"
    (by rfl) (by rfl) (by rfl)

/-- C4.  `ReassignReviewer` fails with exactly one of five error kinds,
each equivalent to its own condition (no catch-all): `prNotFound` iff the PR
does not resolve; `prMerged` iff it resolves and is MERGED;
`reviewerNotAssigned` iff it resolves, is not merged, and the old reviewer
is not on it; `userNotFound` iff additionally the old reviewer identifier
does not resolve; `noCandidate` iff additionally the filtered replacement
pool is empty.  Every error leaves the store (hence the PR's reviewer set)
unchanged, and no error outside these five is produced. -/
theorem reassign_error_cases (db : DB) (pick : Nat) (req : ReassignReviewerRequest) :
    ((Service.ReassignReviewer db pick req).2 = .error .prNotFound ↔
      db.GetPRByID req.pullRequestID = none) ∧
    ((Service.ReassignReviewer db pick req).2 = .error .prMerged ↔
      ∃ pr, db.GetPRByID req.pullRequestID = some pr ∧ pr.status = .MERGED) ∧
    ((Service.ReassignReviewer db pick req).2 = .error .reviewerNotAssigned ↔
      ∃ pr, db.GetPRByID req.pullRequestID = some pr ∧ pr.status ≠ .MERGED ∧
        req.oldUserID ∉ pr.assignedReviewers) ∧
    ((Service.ReassignReviewer db pick req).2 = .error .userNotFound ↔
      ∃ pr, db.GetPRByID req.pullRequestID = some pr ∧ pr.status ≠ .MERGED ∧
        req.oldUserID ∈ pr.assignedReviewers ∧
        db.GetUserByID req.oldUserID = none) ∧
    ((Service.ReassignReviewer db pick req).2 = .error .noCandidate ↔
      ∃ pr oldR, db.GetPRByID req.pullRequestID = some pr ∧
        pr.status ≠ .MERGED ∧ req.oldUserID ∈ pr.assignedReviewers ∧
        db.GetUserByID req.oldUserID = some oldR ∧
        availableReplacements db pr oldR req.oldUserID = []) ∧
    (∀ e, (Service.ReassignReviewer db pick req).2 = .error e →
      (Service.ReassignReviewer db pick req).1 = db ∧
      (e = .prNotFound ∨ e = .prMerged ∨ e = .reviewerNotAssigned ∨
        e = .userNotFound ∨ e = .noCandidate)) := by
  unfold Service.ReassignReviewer
  cases hpr : db.GetPRByID req.pullRequestID with
  | none => refine ⟨?_, ?_, ?_, ?_, ?_, ?_⟩ <;> simp
  | some pr =>
    by_cases hm : pr.status = .MERGED
    · refine ⟨?_, ?_, ?_, ?_, ?_, ?_⟩ <;> simp [hm]
    · cases hc : pr.assignedReviewers.contains req.oldUserID with
      | false =>
        have hc2 : req.oldUserID ∉ pr.assignedReviewers := by simpa using hc
        refine ⟨?_, ?_, ?_, ?_, ?_, ?_⟩ <;> simp [hm, hc, hc2]
      | true =>
        have hc2 : req.oldUserID ∈ pr.assignedReviewers := by simpa using hc
        cases hold : db.GetUserByID req.oldUserID with
        | none =>
          refine ⟨?_, ?_, ?_, ?_, ?_, ?_⟩ <;> simp [hm, hc, hc2]
        | some oldR =>
          cases hav : availableReplacements db pr oldR req.oldUserID with
          | nil =>
            refine ⟨?_, ?_, ?_, ?_, ?_, ?_⟩ <;> simp [hm, hc, hc2, hav]
          | cons a rest =>
            refine ⟨?_, ?_, ?_, ?_, ?_, ?_⟩ <;> simp [hm, hc, hc2, hav]

/-- C4 witness: a merged PR yields `prMerged` and leaves the store
unchanged, over the sample store. -/
theorem reassign_error_cases_witness :
    (Service.ReassignReviewer sampleDB 0
      { pullRequestID := "pr2", oldUserID := "u2" }).2 = .error .prMerged ∧
    (Service.ReassignReviewer sampleDB 0
      { pullRequestID := "pr2", oldUserID := "u2" }).1 = sampleDB := by
  have h := reassign_error_cases sampleDB 0 { pullRequestID := "pr2", oldUserID := "u2" }
  have he : (Service.ReassignReviewer sampleDB 0
      { pullRequestID := "pr2", oldUserID := "u2" }).2 = .error .prMerged :=
    h.2.1.mpr ⟨samplePR2, by rfl, by rfl⟩
  exact ⟨he, (h.2.2.2.2.2 .prMerged he).1⟩

/-! ### Preservation of the author-not-reviewer invariant -/

theorem GetPRByID_unique {db : DB} (hnd : DB.NodupPRIDs db) {prID : String}
    {pr p : PullRequest} (hfind : db.GetPRByID prID = some pr)
    (hp : p ∈ db.prs) (hid : p.pullRequestID = prID) : p = pr := by
  have hmem := DB.GetPRByID_mem hfind
  have hid2 := DB.GetPRByID_id hfind
  exact List.inj_on_of_nodup_map hnd hp hmem (by rw [hid, hid2])

theorem prIDs_UpdatePR (db : DB) (pr2 : PullRequest) :
    (db.UpdatePR pr2).prs.map PullRequest.pullRequestID =
      db.prs.map PullRequest.pullRequestID := by
  unfold DB.UpdatePR
  dsimp only
  rw [List.map_map]
  apply List.map_congr_left
  intro p hp
  by_cases h : p.pullRequestID = pr2.pullRequestID <;> simp [h]

theorem prIDs_UpdatePRReviewers (db : DB) (prID : String) (rs : List String) :
    (db.UpdatePRReviewers prID rs).prs.map PullRequest.pullRequestID =
      db.prs.map PullRequest.pullRequestID := by
  unfold DB.UpdatePRReviewers
  dsimp only
  rw [List.map_map]
  apply List.map_congr_left
  intro p hp
  by_cases h : p.pullRequestID = prID <;> simp [h]

theorem not_mem_prIDs_of_GetPRByID_none {db : DB} {prID : String}
    (h : db.GetPRByID prID = none) :
    prID ∉ db.prs.map PullRequest.pullRequestID := by
  intro hmem
  obtain ⟨p, hp, hid⟩ := List.mem_map.mp hmem
  have hno := List.find?_eq_none.mp h p hp
  rw [hid] at hno
  simp at hno

theorem mem_take2_userID_ne {pool sl : List User} {ex : String}
    (hperm : sl.Perm pool) (hpool : ∀ u ∈ pool, u.userID ≠ ex) :
    ∀ r ∈ (sl.take (min 2 pool.length)).map User.userID, r ≠ ex := by
  intro r hr
  obtain ⟨u, hu, hru⟩ := List.mem_map.mp hr
  have hupool : u ∈ pool := hperm.subset ((List.take_sublist _ _).subset hu)
  rw [← hru]
  exact hpool u hupool

/-- Branch structure of `MergePR`'s resulting state, keeping the fetched PR
in the update branch. -/
theorem MergePR_state_detail (db : DB) (now : Nat) (prID : String) :
    (Service.MergePR db now prID).1 = db ∨
    ∃ pr, db.GetPRByID prID = some pr ∧
      (Service.MergePR db now prID).1 =
        db.UpdatePR { pr with status := .MERGED, mergedAt := some now } := by
  unfold Service.MergePR
  split
  · left; rfl
  · rename_i pr hpr
    split
    · left; rfl
    · right; exact ⟨pr, hpr, rfl⟩

/-- Branch structure of `ReassignReviewer`'s resulting state, with the data
needed to track the invariant through the success branch. -/
theorem ReassignReviewer_state_detail (db : DB) (pick : Nat)
    (req : ReassignReviewerRequest) :
    (Service.ReassignReviewer db pick req).1 = db ∨
    ∃ pr oldR a rest,
      db.GetPRByID req.pullRequestID = some pr ∧
      db.GetUserByID req.oldUserID = some oldR ∧
      availableReplacements db pr oldR req.oldUserID = a :: rest ∧
      (Service.ReassignReviewer db pick req).1 =
        db.UpdatePRReviewers pr.pullRequestID (pr.assignedReviewers.map
          (fun r => if r == req.oldUserID then
            ((a :: rest).getD (pick % (a :: rest).length) a).userID else r)) := by
  unfold Service.ReassignReviewer
  split
  · left; rfl
  · rename_i pr hpr
    split
    · left; rfl
    · split
      · left; rfl
      · split
        · left; rfl
        · rename_i oldR hold
          split
          · left; rfl
          · rename_i a rest hav
            right
            exact ⟨pr, oldR, a, rest, hpr, hold, hav, rfl⟩

theorem Step.preserves_inv {db db' : DB} (h : Step db db')
    (hnd : DB.NodupPRIDs db) (hanr : DB.AuthorNotReviewer db) :
    DB.NodupPRIDs db' ∧ DB.AuthorNotReviewer db' := by
  cases h with
  | createTeam req =>
    constructor
    · unfold DB.NodupPRIDs
      rw [Service.CreateTeam_prs]
      exact hnd
    · unfold DB.AuthorNotReviewer
      rw [Service.CreateTeam_prs]
      exact hanr
  | setUserActive req =>
    constructor
    · unfold DB.NodupPRIDs
      rw [Service.SetUserActive_prs]
      exact hnd
    · unfold DB.AuthorNotReviewer
      rw [Service.SetUserActive_prs]
      exact hanr
  | createPR shuffle now req hperm =>
    unfold Service.CreatePR
    cases h1 : db.GetPRByID req.pullRequestID with
    | some pr0 => exact ⟨hnd, hanr⟩
    | none =>
      cases h2 : db.GetUserByID req.authorID with
      | none => exact ⟨hnd, hanr⟩
      | some author =>
        dsimp only [DB.CreatePR]
        constructor
        · unfold DB.NodupPRIDs
          dsimp only
          rw [List.map_append]
          rw [List.nodup_append]
          refine ⟨hnd, by simp, ?_⟩
          intro x hx
          simp only [List.map_cons, List.map_nil, List.mem_singleton]
          intro hx2
          rw [hx2] at hx
          exact not_mem_prIDs_of_GetPRByID_none h1 hx
        · intro pr hpr
          rcases List.mem_append.mp hpr with hin | hnew
          · exact hanr pr hin
          · rw [List.mem_singleton] at hnew
            subst hnew
            dsimp only
            by_cases hlen :
                0 < (db.GetActiveUsersByTeam author.teamName author.userID).length
            · rw [if_pos hlen]
              intro hcontra
              have hne := mem_take2_userID_ne (hperm _)
                (fun u hu => (mem_GetActiveUsersByTeam hu).2.2.2) _ hcontra
              exact hne (DB.GetUserByID_id h2).symm
            · rw [if_neg hlen]
              exact List.not_mem_nil _
  | mergePR now prID =>
    rcases MergePR_state_detail db now prID with h | ⟨pr, hpr, h⟩
    · rw [h]; exact ⟨hnd, hanr⟩
    · rw [h]
      constructor
      · unfold DB.NodupPRIDs
        rw [prIDs_UpdatePR]
        exact hnd
      · intro p' hp'
        unfold DB.UpdatePR at hp'
        dsimp only at hp'
        obtain ⟨p, hp, hfp⟩ := List.mem_map.mp hp'
        rw [← hfp]
        by_cases hcond : p.pullRequestID = pr.pullRequestID
        · have hp_eq : p = pr :=
            GetPRByID_unique hnd hpr hp (hcond.trans (DB.GetPRByID_id hpr))
          subst hp_eq
          rw [if_pos (beq_self_eq_true _)]
          exact hanr p hp
        · rw [if_neg (by simpa using hcond)]
          exact hanr p hp
  | reassignReviewer pick req =>
    rcases ReassignReviewer_state_detail db pick req with
      h | ⟨pr, oldR, a, rest, hpr, hold, hav, h⟩
    · rw [h]; exact ⟨hnd, hanr⟩
    · rw [h]
      constructor
      · unfold DB.NodupPRIDs
        rw [prIDs_UpdatePRReviewers]
        exact hnd
      · intro p' hp'
        unfold DB.UpdatePRReviewers at hp'
        obtain ⟨p, hp, hfp⟩ := List.mem_map.mp hp'
        rw [← hfp]
        by_cases hcond : p.pullRequestID = pr.pullRequestID
        · have hp_eq : p = pr :=
            GetPRByID_unique hnd hpr hp (hcond.trans (DB.GetPRByID_id hpr))
          subst hp_eq
          rw [if_pos (beq_self_eq_true _)]
          dsimp only
          intro hmem2
          obtain ⟨r, hr, hrr⟩ := List.mem_map.mp hmem2
          by_cases hro : r = req.oldUserID
          · obtain ⟨u, hu_users, hu_eq, _, _, _, _, hu_ne_auth⟩ :=
              reassign_pick_spec pick hav
            rw [hro] at hrr
            rw [if_pos (beq_self_eq_true _)] at hrr
            rw [← hu_eq] at hrr
            exact hu_ne_auth hrr
          · rw [if_neg (by simpa using hro)] at hrr
            exact hanr p hp (hrr ▸ hr)
        · rw [if_neg (by simpa using hcond)]
          exact hanr p hp

theorem Reachable.inv {db : DB} (h : Reachable db) :
    DB.NodupPRIDs db ∧ DB.AuthorNotReviewer db := by
  unfold Reachable at h
  induction h with
  | refl =>
    constructor
    · unfold DB.NodupPRIDs DB.init
      simp
    · intro pr hpr
      simp [DB.init] at hpr
  | tail hsteps hstep ih => exact Step.preserves_inv hstep ih.1 ih.2

/-- C6.  In every store reachable from the empty store by the service's
operations, no PR's author is a member of its own reviewer set: initial
selection and reassignment both exclude the author. -/
theorem reachable_author_not_reviewer (db : DB) (h : Reachable db) :
    ∀ pr ∈ db.prs, pr.authorID ∉ pr.assignedReviewers :=
  (Reachable.inv h).2

/-- C6 witness: a concrete reachable store (team creation followed by a PR
creation) with the invariant instantiated on it. -/
theorem reachable_author_not_reviewer_witness :
    Reachable sampleDB2 ∧
    (∀ pr ∈ sampleDB2.prs, pr.authorID ∉ pr.assignedReviewers) := by
  have h1 : Step DB.init sampleDB1 := Step.createTeam DB.init sampleTeamReq
  have h2 : Step sampleDB1 sampleDB2 :=
    Step.createPR sampleDB1 id 0 samplePRReq (fun l => List.Perm.refl l)
  have hreach : Reachable sampleDB2 :=
    Relation.ReflTransGen.tail
      (Relation.ReflTransGen.tail Relation.ReflTransGen.refl h1) h2
  exact ⟨hreach, reachable_author_not_reviewer sampleDB2 hreach⟩

end ReviewService
